import Mathlib

/-!
# Comic-Encoder: verification of the spec against a shallow embedding

This file embeds the core algorithms of the Comic-Encoder repository as
executable Lean definitions and proves (or refutes) the spec's claims about
them.  Every definition mirrors a specific function of the Rust source:

* `ceil_div`                      — src/lib/calc.rs
* `batchStep/batchScan`,
  `encodeBatches/compileBatches`  — the chapter-batching loops of
                                    src/cli/encode.rs (lines 508-524) and
                                    src/actions/compile.rs (lines 171-212)
* `take_num`, `natural_cmp`       — src/lib/natsort.rs
* `has_image_ext`                 — src/lib/images.rs
* `compile_plan`                  — the range-resolution front of
                                    src/actions/compile.rs (lines 14-145)
* `display_name_individual`,
  `name_in_zip_each`, ...         — the Each-mode naming of
                                    src/lib/build_vol.rs (lines 88-108, 181-211)
* `build_volume_finalize`,
  `staging_path`, `complete_path` — the publish step of src/lib/build_vol.rs
                                    (lines 70-71, 247-280, 327)
* `decode_front`                  — the pre-format-dispatch steps of
                                    src/cli/decode.rs (lines 31-76, 216-222)
* `extract_pdf_images`            — PDF page handling (see its doc comment)

Machine integers (`usize`) are embedded as `Nat`; a subtraction that can
underflow in Rust (a panic under overflow checks) is embedded through
`checked_sub`, with `none` standing for the panic.
-/

namespace ComicEnc

/-- `ceil_div` from src/lib/calc.rs: `num / divider + if num % divider != 0 { 1 } else { 0 }`. -/
def ceil_div (num divider : Nat) : Nat :=
  num / divider + if num % divider ≠ 0 then 1 else 0

/-! ## Chapter batching

Both pipelines accumulate chapters into `volume_chapters`, sealing a volume
whenever the accumulator reaches `chap_per_vol`.  They differ (only) in the
post-loop condition guarding the final partial volume:

* src/cli/encode.rs line 522:      `if volume_chapters.len() != 0 { build }`
* src/actions/compile.rs line 200: `if volume_chapters.is_empty() { build }`
-/

/-- One iteration of the chapter loop: push the chapter into the current
accumulator; if the accumulator reaches `k` chapters, seal it as a volume. -/
def batchStep (k : Nat) (st : List (List α) × List α) (c : α) : List (List α) × List α :=
  let acc := st.2 ++ [c]
  if acc.length = k then (st.1 ++ [acc], []) else (st.1, acc)

/-- The whole chapter loop: volumes sealed so far, plus the pending accumulator. -/
def batchScan (k : Nat) (chapters : List α) : List (List α) × List α :=
  chapters.foldl (batchStep k) ([], [])

/-- Batching as performed by `encode` (src/cli/encode.rs lines 508-524):
after the loop, a *non-empty* accumulator is built as the last volume. -/
def encodeBatches (k : Nat) (chapters : List α) : List (List α) :=
  let st := batchScan k chapters
  if st.2.length ≠ 0 then st.1 ++ [st.2] else st.1

/-- Batching as performed by `compile` (src/actions/compile.rs lines 199-212):
the post-loop guard is `volume_chapters.is_empty()`, so a last volume is
built exactly when the accumulator is *empty*. -/
def compileBatches (k : Nat) (chapters : List α) : List (List α) :=
  let st := batchScan k chapters
  if st.2.isEmpty then st.1 ++ [st.2] else st.1

/-! ## Natural-order comparator (src/lib/natsort.rs) -/

/-- The loop inside `take_num` (src/lib/natsort.rs lines 9-30): consume the
maximal ASCII-digit run, pushing each digit value unless it is a leading
zero (`if num != 0 || digits.len() != 0`). Returns the collected digits and
the remaining characters. -/
def take_num_loop (digits : List Nat) : List Char → List Nat × List Char
  | [] => (digits, [])
  | c :: rest =>
    if c.isDigit then
      let num := c.toNat - 0x30
      if num ≠ 0 ∨ digits.length ≠ 0 then take_num_loop (digits ++ [num]) rest
      else take_num_loop digits rest
    else (digits, c :: rest)

/-- `take_num` from src/lib/natsort.rs: zero-stripped digit run plus the rest. -/
def take_num (chars : List Char) : List Nat × List Char :=
  take_num_loop [] chars

/-- The digit-by-digit loop of `natural_cmp` (src/lib/natsort.rs lines 66-72):
first differing digit decides; if none differs the result is `Equal`. -/
def cmp_digit_lists : List Nat → List Nat → Ordering
  | x :: xs, y :: ys =>
    match compare x y with
    | Ordering.eq => cmp_digit_lists xs ys
    | o => o
  | _, _ => Ordering.eq

/-- `natural_cmp` from src/lib/natsort.rs (lines 49-90), on character lists.
When both current characters are ASCII digits, the zero-stripped runs are
compared by length, then digit by digit; if they are equal the function
returns `Equal` *without* looking at the characters after the runs (the
digit branch of the Rust `loop` ends in `Ordering::Equal`, which the
enclosing `return match` returns).  Otherwise characters are compared by
code point, continuing only on exact equality.  An exhausted side is lesser. -/
def natural_cmp_list : List Char → List Char → Ordering
  | [], [] => Ordering.eq
  | _ :: _, [] => Ordering.gt
  | [], _ :: _ => Ordering.lt
  | lc :: lrest, rc :: rrest =>
    if lc.isDigit ∧ rc.isDigit then
      let ln := take_num (lc :: lrest)
      let rn := take_num (rc :: rrest)
      match compare ln.1.length rn.1.length with
      | Ordering.eq => cmp_digit_lists ln.1 rn.1
      | o => o
    else
      match compare lc rc with
      | Ordering.eq => natural_cmp_list lrest rrest
      | o => o

/-- `natural_cmp` from src/lib/natsort.rs on strings. -/
def natural_cmp (left right : String) : Ordering :=
  natural_cmp_list left.toList right.toList

/-! ## Image-extension predicate (src/lib/images.rs) -/

/-- The first match arm of `has_image_ext` (src/lib/images.rs line 21). -/
def common_image_exts : List String := ["jpg", "jpeg", "png", "bmp"]

/-- The second match arm of `has_image_ext` (src/lib/images.rs lines 23-25). -/
def extended_image_exts : List String :=
  ["tif", "tiff", "gif", "eps", "raw", "cr2", "nef", "orf", "sr2",
   "ppm", "webp", "pgm", "pbm", "pnm", "ico", "flif", "pam", "pcx",
   "pgf", "sgi", "sid", "bgp"]

/-- `has_image_ext` from src/lib/images.rs (lines 15-31), over the already
extracted UTF-8 extension (`none` models a path without extension or with a
non-UTF-8 one, both rejected by the Rust code).  The extension is matched
verbatim — the Rust `match ext` has no case folding. -/
def has_image_ext (ext : Option String) (extended : Bool) : Bool :=
  match ext with
  | none => false
  | some e =>
    if common_image_exts.contains e then true
    else if extended_image_exts.contains e then extended
    else false

/-! ## Range resolution and batching front of `compile` (src/actions/compile.rs) -/

/-- The typed configuration errors raised by `compile` before any batching
(src/actions/compile.rs lines 20-40). -/
inductive CompileError
  | atLeast1ChapterPerVolume
  | invalidStartChapter
  | invalidEndChapter
  | startChapterCannotBeHigherThanEndChapter
  deriving DecidableEq

/-- Rust `usize` subtraction: `none` models the arithmetic-overflow panic
raised when the subtrahend exceeds the minuend (debug/overflow-checked
semantics; release builds would wrap instead). -/
def checked_sub (a b : Nat) : Option Nat :=
  if b ≤ a then some (a - b) else none

/-- The `end_chapter < start_chapter` validation of src/actions/compile.rs
lines 36-40: it only fires when both options are given. -/
def start_end_conflict (startOpt endOpt : Option Nat) : Bool :=
  match startOpt, endOpt with
  | some s, some e => decide (e < s)
  | _, _ => false

/-- The `compile` pipeline of src/actions/compile.rs (lines 14-145 and
171-212), restricted to its pure planning part: validation, range
resolution and batching over the already discovered, already sorted chapter
list.  `none` models a `usize` underflow panic; `some (Except.error e)` a
typed error; `some (Except.ok vols)` the groups of chapters handed to
`build_volume`, in order.

The source computes `start_chapter = opts.start_chapter.unwrap_or(1) - 1`
(safe: a zero start was rejected), then
`end_chapter = min(end_chapter, chapter_dirs.len() - start_chapter)` —
whose subtraction underflows when `start_chapter` exceeds the number of
discovered chapters — returns `Ok(vec![])` when the clamped end is `0`,
then `chapter_len = end_chapter - start_chapter` (which may also
underflow), and batches `chapter_dirs.skip(start).take(chapter_len)`. -/
def compile_plan (k : Nat) (startOpt endOpt : Option Nat) (chapters : List α) :
    Option (Except CompileError (List (List α))) :=
  if k = 0 then some (Except.error CompileError.atLeast1ChapterPerVolume)
  else if startOpt = some 0 then some (Except.error CompileError.invalidStartChapter)
  else if endOpt = some 0 then some (Except.error CompileError.invalidEndChapter)
  else if start_end_conflict startOpt endOpt then
    some (Except.error CompileError.startChapterCannotBeHigherThanEndChapter)
  else
    let total := chapters.length
    let start0 := startOpt.getD 1 - 1
    let endRaw := endOpt.getD total
    match checked_sub total start0 with
    | none => none
    | some rem =>
      let endClamped := min endRaw rem
      if endClamped = 0 then some (Except.ok [])
      else
        match checked_sub endClamped start0 with
        | none => none
        | some chapterLen =>
          some (Except.ok (compileBatches k ((chapters.drop start0).take chapterLen)))

/-- The same planning front as performed by the historical `encode`
pipeline (src/cli/encode.rs lines 330-350 and 449-524, Compile method):
validation, range clamping and the two underflowing subtractions are
line-for-line the same as in src/actions/compile.rs, but the final
partial batch is guarded by `volume_chapters.len() != 0` (line 522), i.e.
the batching is `encodeBatches` instead of `compileBatches`. -/
def encode_plan (k : Nat) (startOpt endOpt : Option Nat) (chapters : List α) :
    Option (Except CompileError (List (List α))) :=
  if k = 0 then some (Except.error CompileError.atLeast1ChapterPerVolume)
  else if startOpt = some 0 then some (Except.error CompileError.invalidStartChapter)
  else if endOpt = some 0 then some (Except.error CompileError.invalidEndChapter)
  else if start_end_conflict startOpt endOpt then
    some (Except.error CompileError.startChapterCannotBeHigherThanEndChapter)
  else
    let total := chapters.length
    let start0 := startOpt.getD 1 - 1
    let endRaw := endOpt.getD total
    match checked_sub total start0 with
    | none => none
    | some rem =>
      let endClamped := min endRaw rem
      if endClamped = 0 then some (Except.ok [])
      else
        match checked_sub endClamped start0 with
        | none => none
        | some chapterLen =>
          some (Except.ok (encodeBatches k ((chapters.drop start0).take chapterLen)))

/-! ## Each-mode naming (src/lib/build_vol.rs lines 88-108 and 160-211) -/

/-- The ASCII apostrophe used by the `format!("'{}'", ...)` calls. -/
def squote : Char := Char.ofNat 39

/-- Wrap a string in apostrophes, as `format!("'{}'", s)` does. -/
def quoted (s : String) : String :=
  String.singleton squote ++ s ++ String.singleton squote

/-- Rust `format!("{:0w$}", n)`: decimal digits of `n`, left-padded with
zeros up to width `w` (longer representations are kept unchanged). -/
def zero_pad (width n : Nat) : String :=
  let s := toString n
  if s.length < width then String.mk (List.replicate (width - s.length) (Char.ofNat 48)) ++ s
  else s

/-- `display_name_individual` from src/lib/build_vol.rs (lines 89-101), for
the Each method: the chapter directory name, quoted, and — unless
`display_full_names` is set — truncated to its first 50 characters plus an
ellipsis when its byte length exceeds 50. -/
def display_name_individual (displayFullNames : Bool) (chapterName : String) : String :=
  if displayFullNames then quoted chapterName
  else if chapterName.utf8ByteSize ≤ 50 then quoted chapterName
  else String.singleton squote ++ String.mk (chapterName.toList.take 50) ++ "..."
         ++ String.singleton squote

/-- `volume_display_name` for the Each method (src/lib/build_vol.rs line
106): the already-quoted individual display name, quoted once more. -/
def volume_display_name_each (displayFullNames : Bool) (chapterName : String) : String :=
  quoted (display_name_individual displayFullNames chapterName)

/-- `zip_dir_name` for the Each method (src/lib/build_vol.rs line 162): the
chapter directory's raw name, unmodified. -/
def zip_dir_name_each (chapterName : String) : String :=
  chapterName

/-- `name_in_zip` for the Each method (src/lib/build_vol.rs lines 184-192):
`format!("{}_Pic_{:0pic_num_len$}.{file_ext}", volume_display_name, page_nb, ...)`. -/
def name_in_zip_each (displayFullNames : Bool) (chapterName : String)
    (pageNb picNumLen : Nat) (fileExt : String) : String :=
  volume_display_name_each displayFullNames chapterName ++ "_Pic_"
    ++ zero_pad picNumLen pageNb ++ "." ++ fileExt

/-! ## Output paths and the publish step (src/lib/build_vol.rs) -/

/-- The ASCII dot. -/
def dotChar : Char := Char.ofNat 46

/-- Split a file name into its stem and extension with Rust `Path`
semantics: the extension is what follows the last dot, except that a dot at
position 0 (a leading-dot hidden file with no other dot) yields none. -/
def rust_split_ext (name : String) : String × Option String :=
  let cs := name.toList
  match cs.reverse.findIdx? (fun c => c == dotChar) with
  | none => (name, none)
  | some p =>
    let idx := cs.length - 1 - p
    if idx = 0 then (name, none)
    else (String.mk (cs.take idx), some (String.mk (cs.drop (idx + 1))))

/-- Rust `Path::with_extension` on a file name: drop the current extension,
then append `"." ++ ext` (nothing when `ext` is empty). -/
def with_extension (name ext : String) : String :=
  let stem := (rust_split_ext name).1
  if ext = "" then stem else stem ++ "." ++ ext

/-- The staging path of a volume (src/lib/build_vol.rs line 71):
`output_path_without_ext.with_extension(".comic-enc-partial")` — note the
argument's leading dot, so the file name ends in `..comic-enc-partial`. -/
def staging_path (outputPathWithoutExt : String) : String :=
  with_extension outputPathWithoutExt ".comic-enc-partial"

/-- The final path of a volume (src/lib/build_vol.rs lines 247-260):
the `.cbz` extension, plus a ` (<n> pages)` suffix on the stem when
`append_pages_count` is set. -/
def complete_path (outputPathWithoutExt : String) (appendPagesCount : Bool)
    (picsCounter : Nat) : String :=
  let base := with_extension outputPathWithoutExt "cbz"
  if appendPagesCount then
    with_extension base "" ++ " (" ++ toString picsCounter ++ " pages).cbz"
  else base

/-- Errors of the publish step of `build_volume`. -/
inductive FinalizeError
  | outputVolumeFileAlreadyExists
  | outputVolumeFileIsADirectory
  | failedToOverwriteOutputVolumeFile
  | failedToRenameCompleteArchive
  deriving DecidableEq

/-- The publish step of `build_volume` (src/lib/build_vol.rs lines 262-280
and 327), over the outcome of the filesystem probes: whether the complete
path exists, whether it is a directory, whether `fs::remove_file` and
`fs::rename` succeed.  The Rust code is

```
if complete_path.exists() {
    if complete_path.exists() && !enc_opts.overwrite { Err(AlreadyExists)? }
    if !complete_path.is_dir() { Err(IsADirectory)? }
    if let Err(e) = fs::remove_file(&complete_path) { Err(FailedToOverwrite)? }
}
if let Err(e) = fs::rename(&staging_path, &complete_path) { return Err(FailedToRename) }
...
Ok(staging_path)
```

and on success the function returns the *staging* path (line 327). -/
def build_volume_finalize (outputPathWithoutExt : String)
    (overwrite completeExists completeIsDir removeOk renameOk : Bool) :
    Except FinalizeError String :=
  if completeExists then
    if completeExists && !overwrite then Except.error FinalizeError.outputVolumeFileAlreadyExists
    else if !completeIsDir then Except.error FinalizeError.outputVolumeFileIsADirectory
    else if removeOk then
      if renameOk then Except.ok (staging_path outputPathWithoutExt)
      else Except.error FinalizeError.failedToRenameCompleteArchive
    else Except.error FinalizeError.failedToOverwriteOutputVolumeFile
  else
    if renameOk then Except.ok (staging_path outputPathWithoutExt)
    else Except.error FinalizeError.failedToRenameCompleteArchive

/-! ## Decode front end (src/cli/decode.rs lines 31-76 and 216-222) -/

/-- Observable filesystem effects of the decode front end. -/
inductive DecodeEffect
  | createOutputDir
  | openArchive
  deriving DecidableEq

/-- Errors of the decode front end. -/
inductive DecodeError
  | inputFileNotFound
  | inputFileIsADirectory
  | outputDirectoryNotFound
  | outputDirectoryIsAFile
  | unsupportedFormat (ext : String)
  deriving DecidableEq

/-- The extensions `decode` dispatches on (src/cli/decode.rs lines 77, 175). -/
def supported_decode_exts : List String := ["zip", "cbz", "pdf"]

/-- The extension-dispatch step (src/cli/decode.rs lines 68-76 and 216-222):
a missing extension raises `UnsupportedFormat("")`; `zip`/`cbz`/`pdf` (exact
lowercase match) proceed to open the archive; anything else raises
`UnsupportedFormat(ext)`.  `effs` are the effects already performed. -/
def decode_ext_stage (effs : List DecodeEffect) (ext : Option String) :
    List DecodeEffect × Option DecodeError :=
  match ext with
  | none => (effs, some (DecodeError.unsupportedFormat ""))
  | some e =>
    if e = "zip" ∨ e = "cbz" then (effs ++ [DecodeEffect.openArchive], none)
    else if e = "pdf" then (effs ++ [DecodeEffect.openArchive], none)
    else (effs, some (DecodeError.unsupportedFormat e))

/-- Decode configuration and filesystem state, as far as the front end
observes it: existence/kind of the input, the given output path's state
(`none` when no output path is supplied), the create flag, and the input's
UTF-8 extension. -/
structure DecodeInput where
  inputExists : Bool
  inputIsFile : Bool
  output : Option (Bool × Bool)
  createOutputDir : Bool
  ext : Option String

/-- The front end of `decode` (src/cli/decode.rs lines 31-76): input checks,
then output-directory resolution — which *creates* the output directory
(when a missing output path is given together with `create_output_dir`, or
always when no output path is given, line 63) — and only then the
extension dispatch.  Returns the effects performed, and the error if one
stopped the run before the per-format extraction. -/
def decode_front (c : DecodeInput) : List DecodeEffect × Option DecodeError :=
  if !c.inputExists then ([], some DecodeError.inputFileNotFound)
  else if !c.inputIsFile then ([], some DecodeError.inputFileIsADirectory)
  else
    match c.output with
    | some (outExists, outIsDir) =>
      if !outExists then
        if c.createOutputDir then decode_ext_stage [DecodeEffect.createOutputDir] c.ext
        else ([], some DecodeError.outputDirectoryNotFound)
      else if !outIsDir then ([], some DecodeError.outputDirectoryIsAFile)
      else decode_ext_stage [] c.ext
    | none => decode_ext_stage [DecodeEffect.createOutputDir] c.ext

/-- The output-resolution step succeeds: a supplied-but-missing output path
comes with the create flag, and a supplied existing one is a directory. -/
def output_resolution_ok (c : DecodeInput) : Prop :=
  match c.output with
  | some (outExists, outIsDir) =>
    (outExists = false → c.createOutputDir = true) ∧ (outExists = true → outIsDir = true)
  | none => True

/-! ## PDF page extraction tolerance -/

/-- Error for a PDF page (or its resources) that fails to load, carrying
the 1-based page number, as `DecodingError::FailedToGetPdfPage(i + 1, err)`
and `FailedToGetPdfPageResources(i + 1, err)` do. -/
inductive PdfDecodeError
  | failedToGetPdfPage (page : Nat)
  deriving DecidableEq

/-- Modelled from the spec: the decode action consuming the
`Decode::skip_bad_pdf_pages` option (src/cli/opts.rs lines 182-184) is not
under src/ — only the option's declaration and the older
src/cli/decode.rs variant (whose PDF loop, lines 186-195, always aborts on
a failing page and has no tolerance flag) are.  Per the spec, "a page or
resource lookup failure aborts the whole decode (no partial-page skipping)
unless a 'tolerate bad pages' mode is requested by the caller", in which
case the failing page is skipped and extraction continues.  A page is
`none` when its lookup fails, `some imgs` when it yields its images;
`idx` is the 0-based index of the current page. -/
def extract_pdf_images_from (skipBadPages : Bool) (idx : Nat) :
    List (Option (List α)) → Except PdfDecodeError (List α)
  | [] => Except.ok []
  | none :: rest =>
    if skipBadPages then extract_pdf_images_from skipBadPages (idx + 1) rest
    else Except.error (PdfDecodeError.failedToGetPdfPage (idx + 1))
  | some imgs :: rest =>
    match extract_pdf_images_from skipBadPages (idx + 1) rest with
    | Except.ok tail => Except.ok (imgs ++ tail)
    | Except.error e => Except.error e

/-- Modelled from the spec (see `extract_pdf_images_from`): PDF decoding
over the whole page list. -/
def extract_pdf_images (skipBadPages : Bool) (pages : List (Option (List α))) :
    Except PdfDecodeError (List α) :=
  extract_pdf_images_from skipBadPages 0 pages

/-! # Supporting lemmas -/

/-- Invariant of the batching loop: every sealed volume has exactly `k`
chapters, the pending accumulator has fewer than `k`, and sealed volumes
plus accumulator spell out the input in order. -/
theorem batchStep_foldl_inv {α : Type} (k : Nat) (hk : 0 < k) (l : List α) :
    ∀ (groups : List (List α)) (acc : List α),
      (∀ g ∈ groups, g.length = k) → acc.length < k →
      (∀ g ∈ (l.foldl (batchStep k) (groups, acc)).1, g.length = k)
      ∧ (l.foldl (batchStep k) (groups, acc)).2.length < k
      ∧ (l.foldl (batchStep k) (groups, acc)).1.flatten ++ (l.foldl (batchStep k) (groups, acc)).2
          = groups.flatten ++ (acc ++ l) := by
  induction l with
  | nil =>
    intro groups acc hg ha
    exact ⟨hg, ha, by simp⟩
  | cons c rest ih =>
    intro groups acc hg ha
    simp only [List.foldl_cons]
    by_cases h : (acc ++ [c]).length = k
    · have step : batchStep k (groups, acc) c = (groups ++ [acc ++ [c]], []) := by
        simp [batchStep, h]
      rw [step]
      have hg' : ∀ g ∈ groups ++ [acc ++ [c]], g.length = k := by
        intro g hgmem
        rcases List.mem_append.mp hgmem with hmem | hmem
        · exact hg g hmem
        · simp only [List.mem_singleton] at hmem
          subst hmem
          exact h
      have hrec := ih (groups ++ [acc ++ [c]]) [] hg' hk
      refine ⟨hrec.1, hrec.2.1, ?_⟩
      rw [hrec.2.2]
      simp
    · have step : batchStep k (groups, acc) c = (groups, acc ++ [c]) := by
        have h' : ¬ acc.length + 1 = k := by simpa using h
        simp [batchStep, h']
      rw [step]
      have ha' : (acc ++ [c]).length < k := by
        have hlen : (acc ++ [c]).length = acc.length + 1 := by simp
        omega
      have hrec := ih groups (acc ++ [c]) hg ha'
      refine ⟨hrec.1, hrec.2.1, ?_⟩
      rw [hrec.2.2]
      simp

/-- A list of `k`-sized groups flattens to `count * k` elements. -/
theorem flatten_length_of_uniform {α : Type} (k : Nat) :
    ∀ (groups : List (List α)), (∀ g ∈ groups, g.length = k) →
      groups.flatten.length = groups.length * k := by
  intro groups
  induction groups with
  | nil => simp
  | cons g gs ih =>
    intro h
    have hg : g.length = k := h g (by simp)
    have hrest := ih (fun g' hg' => h g' (by simp [hg']))
    simp [hg, hrest]
    ring

/-- The `encode` batching concatenates back to the selected chapters: no
chapter is lost or duplicated. -/
theorem encodeBatches_flatten {α : Type} (k : Nat) (hk : 0 < k) (l : List α) :
    (encodeBatches k l).flatten = l := by
  have h := batchStep_foldl_inv k hk l [] [] (by simp) hk
  unfold encodeBatches batchScan
  by_cases hs : (l.foldl (batchStep k) ([], [])).2.length ≠ 0
  · rw [if_pos hs, List.flatten_append, List.flatten_cons, List.flatten_nil, List.append_nil]
    simpa using h.2.2
  · rw [if_neg hs]
    have hempty : (l.foldl (batchStep k) ([], [])).2 = [] := by simpa using hs
    have hfl := h.2.2
    rw [hempty, List.append_nil] at hfl
    simpa using hfl

/-- The `encode` batching yields exactly `ceil(n / k)` volumes. -/
theorem encodeBatches_length {α : Type} (k : Nat) (hk : 0 < k) (l : List α) :
    (encodeBatches k l).length = ceil_div l.length k := by
  have h := batchStep_foldl_inv k hk l [] [] (by simp) hk
  have hn : l.length
      = (l.foldl (batchStep k) ([], [])).1.length * k + (l.foldl (batchStep k) ([], [])).2.length := by
    have hlen := congrArg List.length h.2.2
    simp only [List.length_append] at hlen
    rw [flatten_length_of_uniform k _ h.1] at hlen
    simpa using hlen.symm
  have hrk : (l.foldl (batchStep k) ([], [])).2.length < k := h.2.1
  unfold encodeBatches batchScan ceil_div
  by_cases hs : (l.foldl (batchStep k) ([], [])).2.length ≠ 0
  · rw [if_pos hs, hn, Nat.mul_comm, Nat.mul_add_div hk, Nat.div_eq_of_lt hrk,
      Nat.mul_add_mod, Nat.mod_eq_of_lt hrk, if_pos hs]
    simp
  · rw [if_neg hs, hn]
    have hz : (l.foldl (batchStep k) ([], [])).2.length = 0 := by simpa using hs
    rw [hz, Nat.add_zero, Nat.mul_div_cancel _ hk, Nat.mul_mod_left]
    simp

/-- In the `encode` batching every volume but the last has exactly `k`
chapters, and every volume — the last included — has between `1` and `k`. -/
theorem encodeBatches_sizes {α : Type} (k : Nat) (hk : 0 < k) (l : List α) :
    (∀ g ∈ (encodeBatches k l).dropLast, g.length = k)
    ∧ ∀ g ∈ encodeBatches k l, 1 ≤ g.length ∧ g.length ≤ k := by
  have h := batchStep_foldl_inv k hk l [] [] (by simp) hk
  unfold encodeBatches batchScan
  by_cases hs : (l.foldl (batchStep k) ([], [])).2.length ≠ 0
  · rw [if_pos hs]
    constructor
    · intro g hg
      rw [List.dropLast_concat] at hg
      exact h.1 g hg
    · intro g hg
      rcases List.mem_append.mp hg with hmem | hmem
      · have := h.1 g hmem
        omega
      · simp only [List.mem_singleton] at hmem
        subst hmem
        have := h.2.1
        omega
  · rw [if_neg hs]
    constructor
    · intro g hg
      exact h.1 g (List.dropLast_subset _ hg)
    · intro g hg
      have := h.1 g hg
      omega

/-- `checked_sub` succeeds exactly on non-underflowing inputs. -/
theorem checked_sub_of_le (a b : Nat) (h : b ≤ a) : checked_sub a b = some (a - b) := by
  simp [checked_sub, h]

/-- The start/end validation passes whenever the given bounds are ordered. -/
theorem start_end_conflict_false (startOpt endOpt : Option Nat)
    (hse : ∀ s e, startOpt = some s → endOpt = some e → ¬ e < s) :
    start_end_conflict startOpt endOpt = false := by
  unfold start_end_conflict
  cases startOpt with
  | none => cases endOpt <;> rfl
  | some s =>
    cases endOpt with
    | none => rfl
    | some e => simpa using hse s e rfl rfl

/-- Without the tolerance flag, a failing page aborts the whole PDF decode. -/
theorem extract_pdf_abort {α : Type} (idx : Nat) (pages : List (Option (List α)))
    (hbad : none ∈ pages) :
    ∃ e, extract_pdf_images_from false idx pages = Except.error e := by
  induction pages generalizing idx with
  | nil => cases hbad
  | cons p rest ih =>
    cases p with
    | none => exact ⟨PdfDecodeError.failedToGetPdfPage (idx + 1), by simp [extract_pdf_images_from]⟩
    | some imgs =>
      have hrest : none ∈ rest := by
        rcases List.mem_cons.mp hbad with hmem | hmem
        · cases hmem
        · exact hmem
      obtain ⟨e, he⟩ := ih (idx + 1) hrest
      exact ⟨e, by simp [extract_pdf_images_from, he]⟩

/-- With the tolerance flag, failing pages are skipped and the good pages
are all extracted, in order. -/
theorem extract_pdf_skip {α : Type} (idx : Nat) (pages : List (Option (List α))) :
    extract_pdf_images_from true idx pages = Except.ok (pages.filterMap id).flatten := by
  induction pages generalizing idx with
  | nil => rfl
  | cons p rest ih =>
    cases p with
    | none => simp [extract_pdf_images_from, ih (idx + 1)]
    | some imgs => simp [extract_pdf_images_from, ih (idx + 1)]

/-! # Claim theorems -/

/-- Claim C1 — for n selected chapters and batch size k, the compile
pipeline is claimed to build ceil(n/k) volumes whose concatenation is the
selection, sealing a non-empty trailing partial batch as the last volume.
The code does the opposite (src/actions/compile.rs line 200 guards the
final build with `volume_chapters.is_empty()`, contradicting its own
comment): with 3 chapters and k = 2 the partial batch `[3]` is dropped
(one volume instead of ceil(3/2) = 2, concatenation loses chapter 3), and
with 2 chapters and k = 2 an extra empty volume is built.  The encode
twin (src/cli/encode.rs line 522, guard `len() != 0`) behaves as claimed. -/
theorem C1_compile_drops_partial_batch :
    compileBatches 2 [1, 2, 3] = [[1, 2]]
    ∧ (compileBatches 2 [1, 2, 3]).length ≠ ceil_div 3 2
    ∧ (compileBatches 2 [1, 2, 3]).flatten ≠ [1, 2, 3]
    ∧ compileBatches 2 [1, 2] = [[1, 2], []]
    ∧ encodeBatches 2 [1, 2, 3] = [[1, 2], [3]]
    ∧ (encodeBatches 2 [1, 2, 3]).length = ceil_div 3 2 := by decide

/-- Claim C2 — when the final output path exists, the build is claimed to
fail without `overwrite`, and with `overwrite` to remove the pre-existing
path before the rename, but only when it is not a directory (else fail).
The code has the is-directory guard inverted (src/lib/build_vol.rs line
268: `if !complete_path.is_dir()` raises `OutputVolumeFileIsADirectory`):
the no-overwrite half holds, but with `overwrite` a pre-existing *regular
file* makes the build fail with the is-a-directory error, while a
pre-existing *directory* passes the guard and is handed to
`fs::remove_file` (whose failure is the only thing stopping the rename). -/
theorem C2_overwrite_check_inverted :
    build_volume_finalize "Volume-1" false true false true true
      = Except.error FinalizeError.outputVolumeFileAlreadyExists
    ∧ build_volume_finalize "Volume-1" true true false true true
      = Except.error FinalizeError.outputVolumeFileIsADirectory
    ∧ build_volume_finalize "Volume-1" true true true true true
      = Except.ok (staging_path "Volume-1")
    ∧ build_volume_finalize "Volume-1" true true true false true
      = Except.error FinalizeError.failedToOverwriteOutputVolumeFile :=
  ⟨rfl, rfl, rfl, rfl⟩

/-- Claim C3 — when both current characters are digits, `natural_cmp` is
claimed to compare the zero-stripped runs and, on equality, continue with
the characters after the runs.  The code instead returns `Equal` as soon
as the stripped runs agree (the digit branch of src/lib/natsort.rs lines
56-74 ends in `Ordering::Equal`, returned by the enclosing `return match`),
so strings with equal digit runs but different suffixes compare `Equal` —
contradicting the function's own doc comment, which promises traditional
UTF-8 ordering apart from whole-number comparison. -/
theorem C3_natural_cmp_stops_at_equal_runs :
    natural_cmp "1a" "1b" = Ordering.eq
    ∧ natural_cmp "1a" "1b" ≠ Ordering.lt
    ∧ natural_cmp "01a" "1b" = Ordering.eq
    ∧ natural_cmp "Folder 2" "Folder 10" = Ordering.lt
    ∧ natural_cmp "a" "b" = Ordering.lt := by decide

/-- Claim C4 — every zero-count selection is claimed to end in success
with an empty volume list, never in a failure or panic.  That is what the
encode twin does (src/cli/encode.rs, correct final-batch guard at line
522) and what compile.rs's own early return ("No chapter found. Nothing
to do.", lines 136-139) intends, but compile.rs deviates twice.  With 4
discovered chapters and start chapter 3 the clamped end is
`min(4, 4-2) = 2`, so the early return is skipped, zero chapters are
selected (`chapter_len = 2 - 2 = 0`), and the inverted
`volume_chapters.is_empty()` guard at line 200 then builds one *empty
volume* — the result is a one-element list, not the claimed empty list,
while `encode_plan` returns the claimed `Ok []` on the same input.  And
with 1 discovered chapter and start chapter 3 the subtraction
`chapter_dirs.len() - start_chapter` at line 134 underflows (a panic
under overflow checks) in both pipelines instead of clamping to a zero
count.  Start chapter 5 of 4 shows the intended early-return path
working one step before the underflow. -/
theorem C4_zero_count_selection :
    compile_plan 1 (some 3) none ([7, 8, 9, 10] : List Nat) = some (Except.ok [[]])
    ∧ compile_plan 1 (some 3) none ([7, 8, 9, 10] : List Nat) ≠ some (Except.ok [])
    ∧ encode_plan 1 (some 3) none ([7, 8, 9, 10] : List Nat) = some (Except.ok [])
    ∧ compile_plan 1 (some 5) none ([7, 8, 9, 10] : List Nat) = some (Except.ok [])
    ∧ compile_plan 2 (some 3) none ([7] : List Nat) = none
    ∧ encode_plan 2 (some 3) none ([7] : List Nat) = none := by
  refine ⟨rfl, ?_, rfl, rfl, rfl, rfl⟩
  intro h
  have h' : some (Except.ok ([[]] : List (List Nat)))
      = some (Except.ok ([] : List (List Nat))) := h
  simp at h'

/-- Claim C5 — in Each mode the page name inside the zip is claimed to be
`<displayName>_Pic_<page>.<ext>` with the raw directory name.  The code
instead interpolates `volume_display_name` (src/lib/build_vol.rs lines
104-108 and 184-192), i.e. the quoted console display name quoted once
more, yielding `''<name>''_Pic_<page>.<ext>`; and for names longer than 50
bytes the truncated-plus-ellipsis console form leaks into the zip path.
Only the chapter *directory* name inside the zip is the raw name, as
claimed. -/
theorem C5_each_page_name_uses_console_name :
    name_in_zip_each false "Chapter 1" 0 1 "jpg" = quoted (quoted "Chapter 1") ++ "_Pic_0.jpg"
    ∧ name_in_zip_each false "Chapter 1" 0 1 "jpg"
        ≠ "Chapter 1" ++ "_Pic_" ++ zero_pad 1 0 ++ "." ++ "jpg"
    ∧ zip_dir_name_each "Chapter 1" = "Chapter 1"
    ∧ display_name_individual false (String.mk (List.replicate 60 (Char.ofNat 97)))
        = String.singleton squote ++ String.mk (List.replicate 50 (Char.ofNat 97)) ++ "..."
            ++ String.singleton squote := by decide

/-- Claim C6 (amended) — `has_image_ext` is case-sensitive: it accepts
exactly the listed lowercase spellings, the common list unconditionally
and the extended list only under the extended-formats flag; extensions
differing in ASCII case are rejected. -/
theorem C6_amended :
    ∀ (e : String) (extended : Bool),
      has_image_ext (some e) extended
        = (common_image_exts.contains e || (extended_image_exts.contains e && extended)) := by
  intro e extended
  show (if common_image_exts.contains e then true
        else if extended_image_exts.contains e then extended else false)
      = (common_image_exts.contains e || (extended_image_exts.contains e && extended))
  cases h1 : common_image_exts.contains e <;> cases h2 : extended_image_exts.contains e <;>
    simp

/-- Claim C6, counterexample — `JPG` and `Png` are rejected although their
lowercase forms are accepted, refuting the claimed case-insensitivity. -/
theorem C6_counterexample :
    has_image_ext (some "JPG") false = false
    ∧ has_image_ext (some "Png") true = false
    ∧ has_image_ext (some "jpg") false = true
    ∧ has_image_ext (some "png") true = true := by decide

/-- Claim C7 — a PDF page or resource lookup failure aborts the whole
decode when the tolerate-bad-pages mode is off, and with the
skip-bad-pdf-pages option the failing pages are skipped and every readable
page is extracted, in order. -/
theorem C7_pdf_tolerance (pages : List (Option (List Nat))) (hbad : none ∈ pages) :
    (∃ e, extract_pdf_images false pages = Except.error e)
    ∧ extract_pdf_images true pages = Except.ok (pages.filterMap id).flatten :=
  ⟨extract_pdf_abort 0 pages hbad, extract_pdf_skip 0 pages⟩

/-- Claim C7, witness — a three-page document whose second page fails:
aborting without the flag, extracting pages 1 and 3 with it. -/
theorem C7_witness :
    (none ∈ [some [1], none, some [2, 3]])
    ∧ ((∃ e, extract_pdf_images false [some [1], none, some [2, 3]] = Except.error e)
       ∧ extract_pdf_images true [some [1], none, some [2, 3]]
           = Except.ok ([some [1], none, some [2, 3]].filterMap id).flatten) :=
  ⟨by decide, C7_pdf_tolerance _ (by decide)⟩

/-- Claim C8 (amended) — an unrecognized input extension makes `decode`
fail with the unsupported-format error before any archive is opened or any
page written, but *after* output-directory resolution, which may already
have created the output directory (the claim's "no output directory is
created" does not hold). -/
theorem C8_amended (c : DecodeInput) (e : String)
    (h1 : c.inputExists = true) (h2 : c.inputIsFile = true)
    (h3 : output_resolution_ok c) (h4 : c.ext = some e)
    (h5 : e ∉ supported_decode_exts) :
    (decode_front c).2 = some (DecodeError.unsupportedFormat e)
    ∧ DecodeEffect.openArchive ∉ (decode_front c).1
    ∧ ∀ eff ∈ (decode_front c).1, eff = DecodeEffect.createOutputDir := by
  obtain ⟨ie, iif, out, cod, ext⟩ := c
  simp only at h1 h2 h4
  subst h1 h2 h4
  have hz : ¬ (e = "zip" ∨ e = "cbz") ∧ ¬ e = "pdf" := by
    simp only [supported_decode_exts, List.mem_cons, List.not_mem_nil, or_false] at h5
    tauto
  unfold decode_front
  simp only [Bool.not_true, if_false]
  cases out with
  | none =>
    simp [decode_ext_stage, hz.1, hz.2]
  | some p =>
    obtain ⟨oe, od⟩ := p
    unfold output_resolution_ok at h3
    simp only at h3
    cases oe with
    | false =>
      have hc := h3.1 rfl
      subst hc
      simp [decode_ext_stage, hz.1, hz.2]
    | true =>
      have hd := h3.2 rfl
      subst hd
      simp [decode_ext_stage, hz.1, hz.2]

/-- Claim C8, witness — decoding `comic.mp3` with no output path given:
unsupported-format error, no archive opened, only the output directory
effect performed. -/
theorem C8_witness :
    ("mp3" ∉ supported_decode_exts)
    ∧ ((decode_front ⟨true, true, none, false, some "mp3"⟩).2
         = some (DecodeError.unsupportedFormat "mp3")
       ∧ DecodeEffect.openArchive ∉ (decode_front ⟨true, true, none, false, some "mp3"⟩).1
       ∧ ∀ eff ∈ (decode_front ⟨true, true, none, false, some "mp3"⟩).1,
           eff = DecodeEffect.createOutputDir) :=
  ⟨by decide, C8_amended ⟨true, true, none, false, some "mp3"⟩ "mp3" rfl rfl trivial rfl (by decide)⟩

/-- Claim C8, counterexample — with an unsupported `mp3` input and no
output path supplied, `decode` creates the output directory (line 63 of
src/cli/decode.rs) before raising the unsupported-format error, refuting
"no output directory is created ... before the error is returned". -/
theorem C8_counterexample :
    decode_front ⟨true, true, none, false, some "mp3"⟩
      = ([DecodeEffect.createOutputDir], some (DecodeError.unsupportedFormat "mp3"))
    ∧ DecodeEffect.createOutputDir ∈ (decode_front ⟨true, true, none, false, some "mp3"⟩).1 :=
  ⟨rfl, by decide⟩

/-- Claim C9 — the historical encode pipeline and the newer compile
pipeline are claimed to group chapters identically.  They never do for a
non-empty selection: with 5 chapters and k = 2 encode seals the trailing
partial batch while compile drops it, and with 3 chapters and k = 3 (an
exact fit) compile builds an extra empty volume — both consequences of
compile.rs's inverted `is_empty` guard. -/
theorem C9_encode_compile_divergence :
    encodeBatches 2 [1, 2, 3, 4, 5] = [[1, 2], [3, 4], [5]]
    ∧ compileBatches 2 [1, 2, 3, 4, 5] = [[1, 2], [3, 4]]
    ∧ encodeBatches 2 [1, 2, 3, 4, 5] ≠ compileBatches 2 [1, 2, 3, 4, 5]
    ∧ encodeBatches 3 [4, 5, 6] = [[4, 5, 6]]
    ∧ compileBatches 3 [4, 5, 6] = [[4, 5, 6], []]
    ∧ encodeBatches 3 [4, 5, 6] ≠ compileBatches 3 [4, 5, 6] := by decide

/-- Claim C10 — every successful non-skipped `build_volume` returns the
staging path (the `.comic-enc-partial` one the rename moved away from),
not the published `.cbz` path, so `compile`'s returned list names staging
locations. -/
theorem C10_returns_staging_path :
    (∀ (base : String) (ow ce cd rm rn : Bool) (p : String),
        build_volume_finalize base ow ce cd rm rn = Except.ok p → p = staging_path base)
    ∧ staging_path "Volume-1" = "Volume-1..comic-enc-partial"
    ∧ complete_path "Volume-1" false 0 = "Volume-1.cbz"
    ∧ complete_path "Volume-1" true 12 = "Volume-1 (12 pages).cbz"
    ∧ staging_path "Volume-1" ≠ complete_path "Volume-1" false 0 := by
  refine ⟨?_, by decide, by decide, by decide, by decide⟩
  intro base ow ce cd rm rn p h
  unfold build_volume_finalize at h
  cases ce <;> cases ow <;> cases cd <;> cases rm <;> cases rn <;> simp_all

/-- Claim C10, witness — a fresh build (no pre-existing output, rename
succeeding) returns exactly the staging path. -/
theorem C10_witness :
    build_volume_finalize "Volume-1" false false false true true
      = Except.ok (staging_path "Volume-1")
    ∧ staging_path "Volume-1" = staging_path "Volume-1" :=
  ⟨rfl, C10_returns_staging_path.1 "Volume-1" false false false true true _ rfl⟩

end ComicEnc
